import Mathlib

set_option autoImplicit false

namespace PixShifter

/-! Shallow embedding of `src/main.rs` of pixshifter-gtk.  String
handling is modelled by structural recursion over `List Char`; the
Unicode-only behaviours of the Rust standard library (non-ASCII
whitespace and numerals) are modelled by their ASCII restrictions, which
agree on every input considered below.  The external tool (`xrandr`) is
a collaborator, modelled as a function from an argument list to an
optional exit status (`none` = the process failed to launch). -/

/-- Rust `str::starts_with(&str)` on character lists. -/
def isPrefixL : List Char → List Char → Bool
  | [], _ => true
  | _ :: _, [] => false
  | a :: as, b :: bs => a == b && isPrefixL as bs

/-- Rust `str::contains(&str)`: substring containment. -/
def containsSub (needle : List Char) : List Char → Bool
  | [] => isPrefixL needle []
  | b :: bs => isPrefixL needle (b :: bs) || containsSub needle bs

/-- Split at every character satisfying `p`, keeping empty segments; the
head segment is returned apart from the tail segments so that the
recursion is structural. -/
def splitPred (p : Char → Bool) : List Char → List Char × List (List Char)
  | [] => ([], [])
  | a :: rest =>
    let r := splitPred p rest
    if p a then ([], r.1 :: r.2) else (a :: r.1, r.2)

/-- All segments produced by splitting at characters satisfying `p`. -/
def splitSeg (p : Char → Bool) (cs : List Char) : List (List Char) :=
  (splitPred p cs).1 :: (splitPred p cs).2

/-- Rust `str::lines`: split at newlines, drop one final empty segment,
and strip one trailing carriage return from each line. -/
def rustLines (s : String) : List String :=
  let segs := splitSeg (· == '\n') s.data
  let segs := if segs.getLast? = some [] then segs.dropLast else segs
  segs.map (fun cs => String.mk (if cs.getLast? = some '\r' then cs.dropLast else cs))

/-- Rust `str::split_whitespace`: maximal nonempty tokens. -/
def splitWs (s : String) : List String :=
  ((splitSeg Char.isWhitespace s.data).filter (fun cs => !cs.isEmpty)).map String.mk

/-- Rust `str::trim` (ASCII whitespace). -/
def trimL (cs : List Char) : List Char :=
  ((cs.dropWhile Char.isWhitespace).reverse.dropWhile Char.isWhitespace).reverse

/-- Rust `str::split_once(char)`: split at the first occurrence of `c`. -/
def splitOnceL (c : Char) : List Char → Option (List Char × List Char)
  | [] => none
  | a :: rest =>
    if a == c then some ([], rest)
    else (splitOnceL c rest).map (fun q => (a :: q.1, q.2))

/-- Rust `str::trim_end_matches(char)`: remove every trailing occurrence
of `c`. -/
def stripTrailing (c : Char) (cs : List Char) : List Char :=
  (cs.reverse.dropWhile (· == c)).reverse

/-- Rust `str::contains(char)`. -/
def containsChar (s : String) (c : Char) : Bool :=
  s.data.any (· == c)

/-- Decimal value of a digit list. -/
def natOfDigits (cs : List Char) : Nat :=
  cs.foldl (fun n c => n * 10 + (c.toNat - 48)) 0

/-- Digit-run part of `str::parse::<u32>`: at least one ASCII digit,
with the value bounded by the `u32` range. -/
def parseU32Digits (ds : List Char) : Option Nat :=
  if ds ≠ [] ∧ ds.all Char.isDigit then
    if natOfDigits ds < 4294967296 then some (natOfDigits ds) else none
  else none

/-- Optional leading plus sign of `str::parse::<u32>`. -/
def stripLeadPlus : List Char → List Char
  | '+' :: rest => rest
  | cs => cs

/-- Rust `str::parse::<u32>`: an optional leading plus sign, then at
least one ASCII digit, with the value bounded by the `u32` range. -/
def parseU32 (cs : List Char) : Option Nat :=
  parseU32Digits (stripLeadPlus cs)

/-- Rust `str::parse::<f64>` restricted to plain decimal literals
(optional sign, integer digits, optional fraction), kept exact over `ℚ`.
Exponent, infinity and NaN forms are not modelled, and no rounding to
binary is performed; every input considered below is exact. -/
def parseRat (cs : List Char) : Option ℚ :=
  let sb : Bool × List Char := match cs with
    | '-' :: rest => (true, rest)
    | '+' :: rest => (false, rest)
    | _ => (false, cs)
  let mk : ℚ → Option ℚ := fun q => some (if sb.1 then -q else q)
  match splitOnceL '.' sb.2 with
  | none =>
    if sb.2 ≠ [] ∧ sb.2.all Char.isDigit then mk (natOfDigits sb.2 : ℚ) else none
  | some q =>
    if (q.1 ≠ [] ∨ q.2 ≠ []) ∧ q.1.all Char.isDigit ∧ q.2.all Char.isDigit then
      mk ((natOfDigits q.1 : ℚ) + (natOfDigits q.2 : ℚ) / ((10 : ℚ) ^ q.2.length))
    else none

/-- Structured record produced by display enumeration (`DisplayInfo` in
the source); `u32` fields are modelled as `Nat`, the `f64` refresh rate
as an exact rational. -/
structure DisplayInfo where
  name : String
  width : Nat
  height : Nat
  refresh_rate : ℚ
  is_primary : Bool
deriving Repr, DecidableEq

/-- Rust `format!("{:+}", n)` for an `i32`: an explicit sign in every
case. -/
def fmtSigned (n : ℤ) : String :=
  if 0 ≤ n then "+" ++ toString n else toString n

/-- Position string built by `apply_pixel_shift_position`: the four
sign-combination branches of the source, verbatim. -/
def posStr (x_offset y_offset : ℤ) : String :=
  if 0 ≤ x_offset ∧ 0 ≤ y_offset then
    toString x_offset ++ "+" ++ toString y_offset
  else if x_offset < 0 ∧ 0 ≤ y_offset then
    fmtSigned x_offset ++ "+" ++ toString y_offset
  else if 0 ≤ x_offset ∧ y_offset < 0 then
    toString x_offset ++ "+" ++ fmtSigned y_offset
  else
    fmtSigned x_offset ++ fmtSigned y_offset

/-- Magnitude of `q` scaled by `10^6` and rounded to the nearest integer
(half away from zero).  Rust `format!("{:.6}", x)` rounds the `f64`
value to six decimals; exact ties (half-to-even there) are not exercised
by any input below. -/
def rnd6 (q : ℚ) : Nat :=
  (q.num.natAbs * 1000000 * 2 + q.den) / (2 * q.den)

/-- Left-pad a decimal numeral to six digits. -/
def pad6 (n : Nat) : String :=
  let s := toString n
  String.mk (List.replicate (6 - s.length) '0') ++ s

/-- Rust `format!("{:.6}", q)` on the exact rational value. -/
def fmt6 (q : ℚ) : String :=
  let m := rnd6 q
  (if q < 0 then "-" else "") ++ toString (m / 1000000) ++ "." ++ pad6 (m % 1000000)

/-- Transform matrix string built by `apply_pixel_shift_transform`.  The
two `f64` divisions are modelled as exact rational divisions; this is
exact at `dx = dy = 0`, the only point the claims evaluate. -/
def transformStr (display : DisplayInfo) (x_offset y_offset : ℤ) : String :=
  let tx : ℚ := (x_offset : ℚ) / (display.width : ℚ)
  let ty : ℚ := (y_offset : ℚ) / (display.height : ℚ)
  "1,0," ++ fmt6 tx ++ ",0,1," ++ fmt6 ty ++ ",0,0,1"

/-- Panning specification built by `apply_pixel_shift_panning`. -/
def panningSpec (display : DisplayInfo) (x_offset y_offset : ℤ) : String :=
  toString display.width ++ "x" ++ toString display.height ++ "+" ++
    toString x_offset ++ "+" ++ toString y_offset

/-- Panning specification built by `apply_pixel_shift_panning_smooth`
(a 10-pixel margin on each dimension). -/
def panningSmoothSpec (display : DisplayInfo) (x_offset y_offset : ℤ) : String :=
  toString (display.width + 10) ++ "x" ++ toString (display.height + 10) ++ "+" ++
    toString x_offset ++ "+" ++ toString y_offset

/-! Display query parser (`parse_current_mode` and
`get_connected_displays` in the source). -/

/-- One whitespace token of a connected-display header line, as examined
by the header phase of `parse_current_mode`: the token must contain both
an `x` and a `+`; it is split at the first `+`, the prefix is split at
the first `x`, and both halves must parse as `u32`. -/
def tokenRes (part : String) : Option (Nat × Nat) :=
  if containsChar part 'x' ∧ containsChar part '+' then
    match splitOnceL '+' part.data with
    | some rp =>
      match splitOnceL 'x' rp.1 with
      | some wh =>
        match parseU32 wh.1, parseU32 wh.2 with
        | some w, some h => some (w, h)
        | _, _ => none
      | none => none
    | none => none
  else none

/-- First accepted resolution token of a header line. -/
def headerScan (line : String) : Option (Nat × Nat) :=
  (splitWs line).findSome? tokenRes

/-- Condition under which `parse_current_mode` treats a line as the
header line of the display being searched for: the line starts with the
display name and contains `"connected"` (note: without a leading space,
so a `disconnected` header also matches here). -/
def headerCond (display_name line : String) : Bool :=
  isPrefixL display_name.data line.data && containsSub "connected".data line.data

/-- Rust `line.trim().starts_with(char::is_numeric)` (ASCII digits). -/
def trimNumeric (line : String) : Bool :=
  match trimL line.data with
  | [] => false
  | c :: _ => c.isDigit

/-- Rust `line.starts_with(' ') || line.starts_with('\t')` negated:
true when the line starts with neither a space nor a tab. -/
def unindented (line : String) : Bool :=
  match line.data with
  | [] => true
  | c :: _ => !(c == ' ') && !(c == '\t')

/-- The mode-line branch of `parse_current_mode`: the line must contain
both `*` and `+`; its first trimmed whitespace token is split at the
first `x` and both halves must parse as `u32`; the refresh rate is read
from the first token containing `*`, after stripping trailing `*` then
trailing `+` characters, defaulting to `60.0` when unparsable. -/
def modeScan (line : String) : Option (Nat × Nat × ℚ) :=
  if containsChar line '*' ∧ containsChar line '+' then
    match (splitWs (String.mk (trimL line.data))).head? with
    | some mode_str =>
      match splitOnceL 'x' mode_str.data with
      | some wh =>
        match parseU32 wh.1, parseU32 wh.2 with
        | some w, some h =>
          let rr : ℚ :=
            match (splitWs (String.mk (trimL line.data))).find? (fun p => containsChar p '*') with
            | some p => (parseRat (stripTrailing '+' (stripTrailing '*' p.data))).getD 60
            | none => 60
          some (w, h, rr)
        | _, _ => none
      | none => none
    | none => none
  else none

/-- Loop body of `parse_current_mode`: `found` is the Rust
`found_display` flag.  The header branch returns on an accepted header
token and otherwise continues with `found = true`; a line whose trimmed
form starts with a digit is examined as a mode line (and skipped when it
does not yield a mode); an unindented line after the display has been
found breaks the loop. -/
def parseLoop (display_name : String) : List String → Bool → Option (Nat × Nat × ℚ)
  | [], _ => none
  | line :: rest, found =>
    if headerCond display_name line then
      match headerScan line with
      | some wh => some (wh.1, wh.2, 60)
      | none => parseLoop display_name rest true
    else if found && trimNumeric line then
      match modeScan line with
      | some whr => some whr
      | none => parseLoop display_name rest found
    else if found && unindented line then
      none
    else
      parseLoop display_name rest found

/-- `parse_current_mode` of the source: resolve the active mode of the
named display from the raw query report. -/
def parseCurrentMode (xrandr_output display_name : String) : Option (Nat × Nat × ℚ) :=
  parseLoop display_name (rustLines xrandr_output) false

/-- Loop of `get_connected_displays`: every line containing
`" connected"` and not `"disconnected"` contributes a record when its
first token names a display whose mode resolves. -/
def gcdLoop (output : String) : List String → List DisplayInfo → List DisplayInfo
  | [], displays => displays
  | line :: rest, displays =>
    if containsSub " connected".data line.data ∧ ¬ containsSub "disconnected".data line.data then
      match (splitWs line).head? with
      | some name =>
        match parseCurrentMode output name with
        | some whr =>
          gcdLoop output rest
            (displays ++ [⟨name, whr.1, whr.2.1, whr.2.2, containsSub "primary".data line.data⟩])
        | none => gcdLoop output rest displays
      | none => gcdLoop output rest displays
    else gcdLoop output rest displays

/-- `get_connected_displays` of the source; the argument is the result
of the external query (`none` when the tool failed to launch). -/
def getConnectedDisplays (queryResult : Option String) : List DisplayInfo :=
  match queryResult with
  | none => []
  | some output => gcdLoop output (rustLines output) []

/-! Reset protocol (`reset_display_safe`), shift pattern
(`ShiftPattern`) and the UI handler paths of `build_ui` that the claims
cover.  An executor models `Command::output()`: `none` is a launch
failure, `some b` an exited process whose status success is `b`. -/

/-- External tool collaborator. -/
abbrev Exec := List String → Option Bool

/-- Argument lists of the four reset attempts of `reset_display_safe`,
in source order. -/
def resetCmds (name : String) : List (List String) :=
  [["--output", name, "--transform", "1,0,0,0,1,0,0,0,1"],
   ["--output", name, "--panning", "0x0"],
   ["--output", name, "--pos", "0x0"],
   ["--output", name, "--auto"]]

/-- `reset_display_safe` of the source, instrumented with the list of
attempts actually invoked: each attempt runs only when every earlier one
failed (launch failure or unsuccessful exit both count as failure), and
the first successful exit returns `true` at once. -/
def resetDisplaySafe (exec : Exec) (display : DisplayInfo) : Bool × List (List String) :=
  let c1 := ["--output", display.name, "--transform", "1,0,0,0,1,0,0,0,1"]
  let c2 := ["--output", display.name, "--panning", "0x0"]
  let c3 := ["--output", display.name, "--pos", "0x0"]
  let c4 := ["--output", display.name, "--auto"]
  if exec c1 = some true then (true, [c1])
  else if exec c2 = some true then (true, [c1, c2])
  else if exec c3 = some true then (true, [c1, c2, c3])
  else if exec c4 = some true then (true, [c1, c2, c3, c4])
  else (false, [c1, c2, c3, c4])

/-- Fixed cyclic offset list built by `ShiftPattern::new`.  The Rust
`i32` offsets are modelled as unbounded integers; the UI bounds the
shift amount to 1–10, far from `i32` overflow. -/
def patternPositions (shift_amount : ℤ) : List (ℤ × ℤ) :=
  [(0, 0), (shift_amount, 0), (shift_amount, shift_amount), (0, shift_amount),
   (-shift_amount, shift_amount), (-shift_amount, 0), (-shift_amount, -shift_amount),
   (0, -shift_amount), (shift_amount, -shift_amount)]

/-- Cyclic shift pattern (`ShiftPattern` in the source). -/
structure ShiftPattern where
  positions : List (ℤ × ℤ)
  current_index : Nat
deriving Repr, DecidableEq

/-- `ShiftPattern::new`. -/
def ShiftPattern.new (shift_amount : ℤ) : ShiftPattern :=
  { positions := patternPositions shift_amount, current_index := 0 }

/-- One call of `ShiftPattern::next`.  The Rust body indexes
`self.positions[self.current_index]`, which panics when out of bounds;
the panic is modelled as `none`. -/
def ShiftPattern.next (p : ShiftPattern) : Option ((ℤ × ℤ) × ShiftPattern) :=
  match p.positions.get? p.current_index with
  | none => none
  | some pos =>
    some (pos, { p with current_index := (p.current_index + 1) % p.positions.length })

/-- `ShiftPattern::reset`. -/
def ShiftPattern.reset (p : ShiftPattern) : ShiftPattern :=
  { p with current_index := 0 }

/-- First `n` outputs of successive `next` calls, `none` as soon as one
call would panic. -/
def takeNexts : Nat → ShiftPattern → Option (List (ℤ × ℤ))
  | 0, _ => some []
  | n + 1, p =>
    match p.next with
    | none => none
    | some vp => (takeNexts n vp.2).map (vp.1 :: ·)

/-- Scheduler-relevant mutable state of `build_ui`: the repeating timer
handle (`running_id`) and the optional shift pattern. -/
structure SchedState where
  runningId : Option Nat
  pattern : Option ShiftPattern
deriving Repr, DecidableEq

/-- Argument list passed to the external tool for one shift with the
strategy selected by `method_idx` (the `match` of the handlers: indices
0–3, any other value falling back to the transform strategy). -/
def shiftArgs (method_idx : Nat) (display : DisplayInfo) (dx dy : ℤ) : List String :=
  match method_idx with
  | 0 => ["--output", display.name, "--transform", transformStr display dx dy]
  | 1 => ["--output", display.name, "--panning", panningSmoothSpec display dx dy]
  | 2 => ["--output", display.name, "--pos", posStr dx dy]
  | 3 => ["--output", display.name, "--panning", panningSpec display dx dy]
  | _ => ["--output", display.name, "--transform", transformStr display dx dy]

/-- Observable outcome of one run of the `test_button` handler: the
shift invocations made, the delays (in seconds) of the deferred resets
scheduled, and the scheduler state after the run. -/
structure OneShotResult where
  shifts : List (List String)
  resetDelays : List Nat
  state : SchedState
deriving Repr, DecidableEq

/-- The `test_button` (one-shot) handler of `build_ui`: with a valid
selection it applies one shift with the selected strategy at offset
`(amount, amount)` and, only when that shift reports success, schedules
a single reset 3 seconds later; it never touches `running_id` or the
pattern. -/
def testShiftHandler (exec : Exec) (displays : List DisplayInfo) (active : Option Nat)
    (amount : ℤ) (method_idx : Option Nat) (st : SchedState) : OneShotResult :=
  match active with
  | none => ⟨[], [], st⟩
  | some idx =>
    match displays.get? idx with
    | none => ⟨[], [], st⟩
    | some display =>
      let args := shiftArgs (method_idx.getD 0) display amount amount
      if exec args = some true then ⟨[args], [3], st⟩ else ⟨[args], [], st⟩

/-- Observable outcome of one run of the `stop_button` handler: the new
scheduler state, the reset-protocol attempts made, and its overall
outcome (`none` when no display was selected, so no reset ran). -/
structure StopResult where
  state : SchedState
  resetTrace : List (List String)
  resetOutcome : Option Bool
deriving Repr, DecidableEq

/-- The `stop_button` handler of `build_ui`: take and cancel the timer
handle, rewind the pattern cursor when a pattern exists, and run the
reset protocol on the selected display when there is one. -/
def stopHandler (exec : Exec) (displays : List DisplayInfo) (active : Option Nat)
    (st : SchedState) : StopResult :=
  let st1 : SchedState := { runningId := none, pattern := st.pattern.map ShiftPattern.reset }
  match active with
  | none => ⟨st1, [], none⟩
  | some idx =>
    match displays.get? idx with
    | none => ⟨st1, [], none⟩
    | some display =>
      let r := resetDisplaySafe exec display
      ⟨st1, r.2, some r.1⟩

/-! Transcriptions of the specification's description of the resolution
search, used to compare the description with the code.
`parseCurrentModeClaim` follows the claim's words as stated;
`scanAfterHeader` (with `parseCurrentModeAmended`) is the amended
description, a compositional two-phase form proved equal to the
source-derived `parseCurrentMode`. -/

/-- Claim's token shape
`<digits>x<digits>+<digits>+<digits>` (each digit run nonempty). -/
def shapeTok (part : String) : Bool :=
  match splitOnceL 'x' part.data with
  | none => false
  | some xr =>
    match splitOnceL '+' xr.2 with
    | none => false
    | some pr =>
      match splitOnceL '+' pr.2 with
      | none => false
      | some qr =>
        !xr.1.isEmpty && xr.1.all Char.isDigit && !pr.1.isEmpty && pr.1.all Char.isDigit &&
          !qr.1.isEmpty && qr.1.all Char.isDigit && !qr.2.isEmpty && qr.2.all Char.isDigit

/-- Claim's header phase: the first token of the required shape, split
at the first `+` then at `x`, accepted only if both halves parse as
unsigned integers. -/
def headerScanClaim (line : String) : Option (Nat × Nat) :=
  (splitWs line).findSome? (fun part => if shapeTok part then tokenRes part else none)

/-- Claim's accepted mode line: the leading `WIDTHxHEIGHT` token, and a
refresh rate from the active-marked (`*`) token after stripping the
trailing marker characters, defaulting to 60.0 when unparsable. -/
def modeScanClaim (line : String) : Option (Nat × Nat × ℚ) :=
  match (splitWs line).head? with
  | some mode_str =>
    match splitOnceL 'x' mode_str.data with
    | some wh =>
      match parseU32 wh.1, parseU32 wh.2 with
      | some w, some h =>
        let rr : ℚ :=
          match (splitWs line).find? (fun p => containsChar p '*') with
          | some p => (parseRat (stripTrailing '+' (stripTrailing '*' p.data))).getD 60
          | none => 60
        some (w, h, rr)
      | _, _ => none
    | none => none
  | none => none

/-- Claim's fallback phase: scan the indented mode lines following the
header, stop at the first non-indented line, accept the first line
carrying the currently-active `*` marker. -/
def scanModesClaim : List String → Option (Nat × Nat × ℚ)
  | [] => none
  | line :: rest =>
    if unindented line then none
    else if containsChar line '*' then modeScanClaim line
    else scanModesClaim rest

/-- The resolution search exactly as the claim states it. -/
def parseCurrentModeClaim (xrandr_output display_name : String) : Option (Nat × Nat × ℚ) :=
  match (rustLines xrandr_output).dropWhile (fun l => !headerCond display_name l) with
  | [] => none
  | header :: rest =>
    match headerScanClaim header with
    | some wh => some (wh.1, wh.2, 60)
    | none => scanModesClaim rest

/-- Amended two-phase description: from the first header line on, a
header line for the display is scanned for a token containing both `x`
and `+` whose pre-`+` part splits at `x` into two `u32` values; failing
that, each following line whose trimmed form starts with a digit is a
candidate mode line (accepted when it contains both `*` and `+` and its
leading token parses, skipped otherwise), a further header line
re-enters the header scan, and the search stops at the first line that
is none of these and is unindented. -/
def scanAfterHeader (display_name : String) : List String → Option (Nat × Nat × ℚ)
  | [] => none
  | line :: rest =>
    if headerCond display_name line then
      match headerScan line with
      | some wh => some (wh.1, wh.2, 60)
      | none => scanAfterHeader display_name rest
    else if trimNumeric line then
      match modeScan line with
      | some whr => some whr
      | none => scanAfterHeader display_name rest
    else if unindented line then none
    else scanAfterHeader display_name rest

/-- The resolution search as amended: lines before the first header line
are ignored, then the two-phase scan runs. -/
def parseCurrentModeAmended (xrandr_output display_name : String) : Option (Nat × Nat × ℚ) :=
  scanAfterHeader display_name
    ((rustLines xrandr_output).dropWhile (fun l => !headerCond display_name l))

/-- Declarative per-line contribution to display enumeration: a line
containing `" connected"` and not `"disconnected"` contributes the
record built from its first token and the resolved mode, if any;
every other line contributes nothing. -/
def displayOfLine (output line : String) : Option DisplayInfo :=
  if containsSub " connected".data line.data ∧ ¬ containsSub "disconnected".data line.data then
    ((splitWs line).head?).bind (fun name =>
      (parseCurrentMode output name).map (fun whr =>
        ⟨name, whr.1, whr.2.1, whr.2.2, containsSub "primary".data line.data⟩))
  else none

/-! Theorems.  Shared helper lemmas come first; each claim's theorem
follows with its claim id in the doc comment. -/

theorem transformStr_zero (d : DisplayInfo) :
    transformStr d 0 0 = "1,0,0.000000,0,1,0.000000,0,0,1" := by
  simp only [transformStr, Int.cast_zero, zero_div]
  decide

/-- C1 counterexample: at `(3, -3)` the source emits `"3+-3"` — the
separator `+` is kept and the negative `dy` is rendered with its sign
after it — not the `"3-3"` the claim states. -/
theorem c1_counterexample : posStr 3 (-3) = "3+-3" ∧ posStr 3 (-3) ≠ "3-3" := by decide

/-- C1 (amended): both-negative offsets concatenate the two signed
numerals; every other sign combination renders `dx`, a literal `+`, then
`dy`, each with its own sign embedded (so `(3,-3)` gives `"3+-3"`).  The
four examples of the claim evaluate accordingly. -/
theorem c1_thm :
    (∀ dx dy : ℤ, posStr dx dy =
      if dx < 0 ∧ dy < 0 then toString dx ++ toString dy
      else toString dx ++ "+" ++ toString dy) ∧
    posStr 3 3 = "3+3" ∧ posStr (-3) 3 = "-3+3" ∧ posStr 3 (-3) = "3+-3" ∧
    posStr (-3) (-3) = "-3-3" := by
  refine ⟨fun dx dy => ?_, by decide, by decide, by decide, by decide⟩
  simp only [posStr, fmtSigned]
  split_ifs <;> first | rfl | omega

/-- C2 counterexample: at a 1920×1080 display and `dx = dy = 0` the
transform string has six-decimal zero entries, not the bare `0` entries
the claim states. -/
theorem c2_counterexample :
    transformStr ⟨"HDMI-1", 1920, 1080, 60, true⟩ 0 0 =
        "1,0,0.000000,0,1,0.000000,0,0,1" ∧
    transformStr ⟨"HDMI-1", 1920, 1080, 60, true⟩ 0 0 ≠ "1,0,0,0,1,0,0,0,1" := by
  refine ⟨transformStr_zero _, ?_⟩
  rw [transformStr_zero]
  decide

/-- C2 (amended): for every DisplayInfo with positive width and height,
the TransformMatrix strategy at `dx = dy = 0` emits exactly
`"1,0,0.000000,0,1,0.000000,0,0,1"` (the identity matrix with the
translation entries formatted to six decimals). -/
theorem c2_thm (d : DisplayInfo) (_hw : 0 < d.width) (_hh : 0 < d.height) :
    transformStr d 0 0 = "1,0,0.000000,0,1,0.000000,0,0,1" :=
  transformStr_zero d

/-- C2 witness: the amended theorem applied at a 1920×1080 display. -/
theorem c2_witness :
    0 < (⟨"HDMI-1", 1920, 1080, 60, true⟩ : DisplayInfo).width ∧
    0 < (⟨"HDMI-1", 1920, 1080, 60, true⟩ : DisplayInfo).height ∧
    transformStr ⟨"HDMI-1", 1920, 1080, 60, true⟩ 0 0 =
      "1,0,0.000000,0,1,0.000000,0,0,1" :=
  ⟨by decide, by decide, c2_thm ⟨"HDMI-1", 1920, 1080, 60, true⟩ (by decide) (by decide)⟩

theorem parseLoop_eq (display_name : String) (ls : List String) :
    ∀ found : Bool,
      parseLoop display_name ls found =
        if found then scanAfterHeader display_name ls
        else
          scanAfterHeader display_name
            (ls.dropWhile (fun l => !headerCond display_name l)) := by
  induction ls with
  | nil => intro found; cases found <;> simp [parseLoop, scanAfterHeader]
  | cons line rest ih =>
    intro found
    by_cases hc : headerCond display_name line
    · have hdrop :
          (line :: rest).dropWhile (fun l => !headerCond display_name l) = line :: rest := by
        simp [List.dropWhile_cons, hc]
      cases hs : headerScan line with
      | some wh =>
        cases found <;> simp [parseLoop, scanAfterHeader, hc, hs, hdrop]
      | none =>
        cases found <;>
          simp [parseLoop, scanAfterHeader, hc, hs, hdrop, ih true]
    · have hcf : headerCond display_name line = false := by
        simpa using hc
      cases found with
      | true =>
        by_cases ht : trimNumeric line
        · cases hm : modeScan line with
          | some whr => simp [parseLoop, scanAfterHeader, hcf, ht, hm]
          | none => simp [parseLoop, scanAfterHeader, hcf, ht, hm, ih true]
        · have htf : trimNumeric line = false := by simpa using ht
          by_cases hu : unindented line
          · simp [parseLoop, scanAfterHeader, hcf, htf, hu]
          · have huf : unindented line = false := by simpa using hu
            simp [parseLoop, scanAfterHeader, hcf, htf, huf, ih true]
      | false =>
        have hdrop :
            (line :: rest).dropWhile (fun l => !headerCond display_name l) =
              rest.dropWhile (fun l => !headerCond display_name l) := by
          simp [List.dropWhile_cons, hcf]
        simp [parseLoop, hcf, hdrop, ih false]

/-- C3 counterexample: three concrete reports on which the source parser
and the claim's description disagree.  First, a header token
`"10x20+z"` is not of the claimed shape yet the source accepts it.
Second, the non-indented digit-leading line `"1920x1080 60.00*+"` does
not stop the source's fallback scan — it is taken as a mode line.
Third, the indented line `"  1920x1080 hz*"` carries the active `*`
marker, but the source rejects it because it contains no `+`. -/
theorem c3_counterexample :
    (parseCurrentMode "A connected 10x20+z" "A" = some (10, 20, 60) ∧
      parseCurrentModeClaim "A connected 10x20+z" "A" = none) ∧
    (parseCurrentMode "A connected\n1920x1080 60.00*+" "A" = some (1920, 1080, 60) ∧
      parseCurrentModeClaim "A connected\n1920x1080 60.00*+" "A" = none) ∧
    (parseCurrentMode "A connected\n  1920x1080 hz*" "A" = none ∧
      parseCurrentModeClaim "A connected\n  1920x1080 hz*" "A" = some (1920, 1080, 60)) := by
  decide

/-- C3 (amended): the resolution is resolved by the amended two-phase
search `parseCurrentModeAmended` — header tokens need only contain `x`
and `+` with a `u32`-parsable `WIDTHxHEIGHT` prefix before the first
`+`; the fallback accepts the first digit-leading line containing both
`*` and `+` whose leading token parses (skipping other digit-leading
lines), re-enters the header scan at a further header line, and stops at
the first line that is none of these and unindented.  On the claim's
example report the header path yields width 1920 and height 1080 with
the default 60.0 refresh rate, not the fallback values, and with no
header geometry token the fallback path resolves the active mode line. -/
theorem c3_thm :
    (∀ xrandr_output display_name : String,
      parseCurrentMode xrandr_output display_name =
        parseCurrentModeAmended xrandr_output display_name) ∧
    parseCurrentMode
        "HDMI-1 connected primary 1920x1080+0+0 509mm x 286mm\n   1920x1200     60.00*+  50.00\n"
        "HDMI-1" = some (1920, 1080, 60) ∧
    parseCurrentMode
        "HDMI-1 connected primary (normal left inverted)\n   1920x1200     60.00*+  50.00\n"
        "HDMI-1" = some (1920, 1200, 60) := by
  refine ⟨fun xrandr_output display_name => ?_, by decide, by decide⟩
  rw [parseCurrentMode, parseCurrentModeAmended, parseLoop_eq]
  simp

/-- C4: the reset protocol invokes a prefix of the four fixed attempts —
identity transform, panning `"0x0"`, position `"0x0"`, automatic mode —
in that order, stopping right after the first attempt whose exit status
is success, and it reports success exactly when some attempt succeeds
(so failure exactly when all four fail). -/
theorem c4_thm (exec : Exec) (d : DisplayInfo) :
    (resetDisplaySafe exec d).1 =
        (resetCmds d.name).any (fun c => exec c == some true) ∧
    (resetDisplaySafe exec d).2 =
        (resetCmds d.name).take
          ((resetCmds d.name).findIdx (fun c => exec c == some true) + 1) := by
  simp only [resetDisplaySafe, resetCmds]
  by_cases h1 : exec ["--output", d.name, "--transform", "1,0,0,0,1,0,0,0,1"] = some true <;>
    by_cases h2 : exec ["--output", d.name, "--panning", "0x0"] = some true <;>
      by_cases h3 : exec ["--output", d.name, "--pos", "0x0"] = some true <;>
        by_cases h4 : exec ["--output", d.name, "--auto"] = some true <;>
          simp [h1, h2, h3, h4, beq_iff_eq, Bool.cond_eq_ite, List.findIdx_cons,
            List.any_cons, List.take_succ_cons]

theorem gcdLoop_eq (output : String) :
    ∀ (ls : List String) (acc : List DisplayInfo),
      gcdLoop output ls acc = acc ++ ls.filterMap (displayOfLine output) := by
  intro ls
  induction ls with
  | nil => intro acc; simp [gcdLoop]
  | cons line rest ih =>
    intro acc
    by_cases hc :
        containsSub " connected".data line.data ∧
          ¬ containsSub "disconnected".data line.data
    · cases hn : (splitWs line).head? with
      | none => simp [gcdLoop, displayOfLine, hc, hn, ih]
      | some name =>
        cases hp : parseCurrentMode output name with
        | none => simp [gcdLoop, displayOfLine, hc, hn, hp, ih]
        | some whr => simp [gcdLoop, displayOfLine, hc, hn, hp, ih]
    · have hc' : ¬ (containsSub " connected".data line.data = true ∧
          containsSub "disconnected".data line.data = false) := by
        simpa [Bool.not_eq_true] using hc
      have hq : displayOfLine output line = none := by
        rw [displayOfLine, if_neg hc]
      simp [gcdLoop, hq, hc', ih]

/-- C5: display enumeration returns, in report order, exactly one record
per line containing the `" connected"` marker and not `"disconnected"`
whose first token resolves to a mode (`displayOfLine`); a connected line
whose resolution cannot be resolved contributes nothing, and a failed
tool invocation yields the empty list. -/
theorem c5_thm :
    getConnectedDisplays none = [] ∧
    ∀ output : String,
      getConnectedDisplays (some output) =
        (rustLines output).filterMap (displayOfLine output) := by
  refine ⟨rfl, fun output => ?_⟩
  simpa using gcdLoop_eq output (rustLines output) []

/-- C6: a fresh pattern holds the fixed nine offsets; nine successive
`next` calls return exactly those nine offsets in order (none panics),
and the tenth call returns the first offset again. -/
theorem c6_thm (a : ℤ) :
    (ShiftPattern.new a).positions = patternPositions a ∧
    takeNexts 10 (ShiftPattern.new a) =
      some [(0, 0), (a, 0), (a, a), (0, a), (-a, a), (-a, 0), (-a, -a), (0, -a),
        (a, -a), (0, 0)] := by
  refine ⟨rfl, ?_⟩
  simp [takeNexts, ShiftPattern.next, ShiftPattern.new, patternPositions]

/-- C7 counterexample: with an executor whose shift invocation fails,
the one-shot handler applies its one shift but schedules no deferred
reset, contradicting the claim that every invocation schedules exactly
one. -/
theorem c7_counterexample :
    (testShiftHandler (fun _ => some false) [⟨"HDMI-1", 1920, 1080, 60, true⟩]
        (some 0) 2 (some 2) ⟨none, none⟩).shifts.length = 1 ∧
    (testShiftHandler (fun _ => some false) [⟨"HDMI-1", 1920, 1080, 60, true⟩]
        (some 0) 2 (some 2) ⟨none, none⟩).resetDelays = [] := by
  exact ⟨rfl, rfl⟩

/-- C7 (amended): with a valid display selection the one-shot handler
applies exactly one shift with the selected strategy; it schedules
exactly one deferred reset, after a fixed 3-second delay, when that
shift reports success and none when it fails; and it leaves the
scheduler state (timer handle and pattern) unchanged. -/
theorem c7_thm (exec : Exec) (displays : List DisplayInfo) (idx : Nat)
    (d : DisplayInfo) (amount : ℤ) (method_idx : Option Nat) (st : SchedState)
    (hd : displays.get? idx = some d) :
    (testShiftHandler exec displays (some idx) amount method_idx st).shifts =
        [shiftArgs (method_idx.getD 0) d amount amount] ∧
    (testShiftHandler exec displays (some idx) amount method_idx st).resetDelays =
        (if exec (shiftArgs (method_idx.getD 0) d amount amount) = some true
          then [3] else []) ∧
    (testShiftHandler exec displays (some idx) amount method_idx st).state = st := by
  simp only [testShiftHandler, hd]
  by_cases h : exec (shiftArgs (method_idx.getD 0) d amount amount) = some true <;>
    simp [h]

/-- C7 witness: the amended theorem applied to a singleton display list
with an always-succeeding executor. -/
theorem c7_witness :
    ([⟨"HDMI-1", 1920, 1080, 60, true⟩] : List DisplayInfo).get? 0 =
        some ⟨"HDMI-1", 1920, 1080, 60, true⟩ ∧
    (testShiftHandler (fun _ => some true) [⟨"HDMI-1", 1920, 1080, 60, true⟩]
        (some 0) 2 (some 2) ⟨none, none⟩).resetDelays = [3] :=
  ⟨rfl,
    ((c7_thm (fun _ => some true) [⟨"HDMI-1", 1920, 1080, 60, true⟩] 0
          ⟨"HDMI-1", 1920, 1080, 60, true⟩ 2 (some 2) ⟨none, none⟩ rfl).2.1).trans
      (by simp)⟩

theorem resetDisplaySafe_trace_ne (exec : Exec) (d : DisplayInfo) :
    (resetDisplaySafe exec d).2 ≠ [] := by
  simp only [resetDisplaySafe]
  split_ifs <;> simp

/-- C8: the stop handler is idempotent — after one call the timer handle
is gone and any pattern cursor is rewound to 0; a second call with a
display still selected leaves the state exactly as the first left it,
and it still attempts the reset protocol (a nonempty attempt trace with
a reported outcome), with no error in either call. -/
theorem c8_thm (exec : Exec) (displays : List DisplayInfo) (idx : Nat)
    (d : DisplayInfo) (st : SchedState) (hd : displays.get? idx = some d) :
    (stopHandler exec displays (some idx) st).state.runningId = none ∧
    (∀ p, (stopHandler exec displays (some idx) st).state.pattern = some p →
      p.current_index = 0) ∧
    (stopHandler exec displays (some idx)
        (stopHandler exec displays (some idx) st).state).state =
      (stopHandler exec displays (some idx) st).state ∧
    (stopHandler exec displays (some idx)
        (stopHandler exec displays (some idx) st).state).resetTrace ≠ [] ∧
    (stopHandler exec displays (some idx)
        (stopHandler exec displays (some idx) st).state).resetOutcome.isSome = true := by
  have hrun : ∀ s : SchedState,
      stopHandler exec displays (some idx) s =
        ⟨⟨none, s.pattern.map ShiftPattern.reset⟩, (resetDisplaySafe exec d).2,
          some (resetDisplaySafe exec d).1⟩ := by
    intro s
    simp only [stopHandler, hd]
  rw [hrun, hrun]
  refine ⟨rfl, ?_, ?_, resetDisplaySafe_trace_ne exec d, rfl⟩
  · intro p hp
    cases hq : st.pattern with
    | none => rw [hq] at hp; exact absurd hp (by simp)
    | some q =>
      rw [hq] at hp
      simp only [Option.map_some', Option.some.injEq] at hp
      rw [← hp]
      rfl
  · cases st.pattern <;> rfl

/-- C8 witness: the theorem applied with an always-succeeding executor,
a selected display and a running state with an advanced pattern. -/
theorem c8_witness :
    ([⟨"HDMI-1", 1920, 1080, 60, true⟩] : List DisplayInfo).get? 0 =
        some ⟨"HDMI-1", 1920, 1080, 60, true⟩ ∧
    (stopHandler (fun _ => some true) [⟨"HDMI-1", 1920, 1080, 60, true⟩] (some 0)
        ⟨some 7, some ⟨patternPositions 2, 5⟩⟩).state.runningId = none :=
  ⟨rfl,
    (c8_thm (fun _ => some true) [⟨"HDMI-1", 1920, 1080, 60, true⟩] 0
        ⟨"HDMI-1", 1920, 1080, 60, true⟩ ⟨some 7, some ⟨patternPositions 2, 5⟩⟩ rfl).1⟩

theorem parseU32Digits_lt {ds : List Char} {v : Nat}
    (h : parseU32Digits ds = some v) : v < 4294967296 := by
  unfold parseU32Digits at h
  by_cases h1 : ds ≠ [] ∧ ds.all Char.isDigit
  · rw [if_pos h1] at h
    by_cases h2 : natOfDigits ds < 4294967296
    · rw [if_pos h2] at h
      exact Option.some.inj h ▸ h2
    · rw [if_neg h2] at h
      exact absurd h (by simp)
  · rw [if_neg h1] at h
    exact absurd h (by simp)

theorem parseU32_lt {cs : List Char} {v : Nat} (h : parseU32 cs = some v) :
    v < 4294967296 := by
  rw [parseU32] at h
  exact parseU32Digits_lt h

theorem tokenRes_lt {part : String} {wh : Nat × Nat}
    (e : tokenRes part = some wh) : wh.1 < 4294967296 ∧ wh.2 < 4294967296 := by
  obtain ⟨w, h⟩ := wh
  unfold tokenRes at e
  split at e
  · split at e
    · split at e
      · split at e
        · rename_i w' h' hw hh'
          simp only [Option.some.injEq, Prod.mk.injEq] at e
          obtain ⟨e1, e2⟩ := e
          exact ⟨e1 ▸ parseU32_lt hw, e2 ▸ parseU32_lt hh'⟩
        · exact absurd e (by simp)
      · exact absurd e (by simp)
    · exact absurd e (by simp)
  · exact absurd e (by simp)

theorem headerScan_lt {line : String} {wh : Nat × Nat}
    (e : headerScan line = some wh) : wh.1 < 4294967296 ∧ wh.2 < 4294967296 := by
  unfold headerScan at e
  obtain ⟨part, _, hp⟩ := List.exists_of_findSome?_eq_some e
  exact tokenRes_lt hp

theorem modeScan_lt {line : String} {whr : Nat × Nat × ℚ}
    (e : modeScan line = some whr) : whr.1 < 4294967296 ∧ whr.2.1 < 4294967296 := by
  obtain ⟨w, h, r⟩ := whr
  unfold modeScan at e
  split at e
  · split at e
    · split at e
      · split at e
        · rename_i w' h' hw hh'
          simp only [Option.some.injEq, Prod.mk.injEq] at e
          obtain ⟨e1, e2, _⟩ := e
          exact ⟨e1 ▸ parseU32_lt hw, e2 ▸ parseU32_lt hh'⟩
        · exact absurd e (by simp)
      · exact absurd e (by simp)
    · exact absurd e (by simp)
  · exact absurd e (by simp)

theorem parseLoop_lt (display_name : String) :
    ∀ (ls : List String) (found : Bool) (w h : Nat) (r : ℚ),
      parseLoop display_name ls found = some (w, h, r) →
      w < 4294967296 ∧ h < 4294967296 := by
  intro ls
  induction ls with
  | nil => intro found w h r e; exact absurd e (by simp [parseLoop])
  | cons line rest ih =>
    intro found w h r e
    rw [parseLoop] at e
    split at e
    · split at e
      · rename_i wh hs
        simp only [Option.some.injEq, Prod.mk.injEq] at e
        obtain ⟨e1, e2, _⟩ := e
        obtain ⟨b1, b2⟩ := headerScan_lt hs
        exact ⟨e1 ▸ b1, e2 ▸ b2⟩
      · exact ih true w h r e
    · split at e
      · split at e
        · rename_i whr hm
          simp only [Option.some.injEq] at e
          rw [e] at hm
          exact modeScan_lt hm
        · exact ih found w h r e
      · split at e
        · exact absurd e (by simp)
        · exact ih found w h r e

theorem displayOfLine_lt {output line : String} {d : DisplayInfo}
    (e : displayOfLine output line = some d) :
    d.width < 4294967296 ∧ d.height < 4294967296 := by
  unfold displayOfLine at e
  by_cases hc : containsSub " connected".data line.data ∧
      ¬ containsSub "disconnected".data line.data
  · rw [if_pos hc] at e
    cases hn : (splitWs line).head? with
    | none => rw [hn] at e; exact absurd e (by simp)
    | some name =>
      rw [hn] at e
      simp only [Option.some_bind] at e
      cases hp : parseCurrentMode output name with
      | none => rw [hp] at e; exact absurd e (by simp)
      | some whr =>
        rw [hp] at e
        simp only [Option.map_some'] at e
        obtain ⟨w, h, r⟩ := whr
        rw [parseCurrentMode] at hp
        obtain ⟨b1, b2⟩ := parseLoop_lt name (rustLines output) false w h r hp
        injection e with e'
        subst e'
        exact ⟨b1, b2⟩
  · rw [if_neg hc] at e
    exact absurd e (by simp)

/-- C9 counterexample: the parser performs no positivity check, so a
report whose geometry token is `"0x0+0+0"` yields a DisplayInfo with
width and height 0, refuting the claimed invariant. -/
theorem c9_counterexample :
    ¬ (∀ d ∈ getConnectedDisplays (some "A connected 0x0+0+0"),
        0 < d.width ∧ 0 < d.height) := by
  decide

/-- C9 (amended): every DisplayInfo produced by display enumeration has
width and height in the `u32` range (both below `2^32`, as parsed); the
parser does not guarantee positivity. -/
theorem c9_thm (output : String) (d : DisplayInfo)
    (hd : d ∈ getConnectedDisplays (some output)) :
    d.width < 4294967296 ∧ d.height < 4294967296 := by
  rw [getConnectedDisplays, gcdLoop_eq, List.nil_append] at hd
  obtain ⟨line, _, he⟩ := List.mem_filterMap.mp hd
  exact displayOfLine_lt he

/-- C9 witness: the amended theorem applied to a concrete report. -/
theorem c9_witness :
    (⟨"A", 10, 20, 60, false⟩ : DisplayInfo) ∈
        getConnectedDisplays (some "A connected 10x20+0+0") ∧
    (⟨"A", 10, 20, 60, false⟩ : DisplayInfo).width < 4294967296 ∧
    (⟨"A", 10, 20, 60, false⟩ : DisplayInfo).height < 4294967296 :=
  ⟨by decide,
    c9_thm "A connected 10x20+0+0" ⟨"A", 10, 20, 60, false⟩ (by decide)⟩

/-- Invariant of the shift pattern for a shift amount `a`: the positions
are the nine constructed offsets and the cursor is in bounds. -/
def ShiftPattern.Inv (a : ℤ) (p : ShiftPattern) : Prop :=
  p.positions = patternPositions a ∧ p.current_index < 9

/-- C10: `new` establishes the cursor invariant `0 ≤ i < 9`, `next` and
`reset` preserve it, the indexing inside `next` never panics under it,
and every value `next` returns is one of the nine constructed
offsets. -/
theorem c10_thm (a : ℤ) :
    (ShiftPattern.new a).Inv a ∧
    (∀ p : ShiftPattern, p.Inv a →
      ∃ v p', p.next = some (v, p') ∧ p'.Inv a ∧ v ∈ patternPositions a) ∧
    (∀ p : ShiftPattern, p.Inv a → p.reset.Inv a) := by
  have hlen : (patternPositions a).length = 9 := rfl
  refine ⟨⟨rfl, by show (0 : Nat) < 9; norm_num⟩, ?_, ?_⟩
  · rintro p ⟨hpos, hidx⟩
    have hlt : p.current_index < p.positions.length := by
      rw [hpos, hlen]
      exact hidx
    refine ⟨p.positions.get ⟨p.current_index, hlt⟩,
      { p with current_index := (p.current_index + 1) % p.positions.length },
      ?_, ⟨hpos, ?_⟩, ?_⟩
    · rw [ShiftPattern.next, List.get?_eq_get hlt]
    · show (p.current_index + 1) % p.positions.length < 9
      rw [hpos, hlen]
      exact Nat.mod_lt _ (by norm_num)
    · rw [← hpos]
      exact List.get_mem _ _ _
  · rintro p ⟨hpos, _⟩
    exact ⟨hpos, by show (0 : Nat) < 9; norm_num⟩

/-- C10 witness: the preservation part of the theorem applied to a
pattern with shift amount 2 and cursor 4. -/
theorem c10_witness :
    (⟨patternPositions 2, 4⟩ : ShiftPattern).Inv 2 ∧
    ∃ v p', (⟨patternPositions 2, 4⟩ : ShiftPattern).next = some (v, p') ∧
      p'.Inv 2 ∧ v ∈ patternPositions 2 :=
  ⟨⟨rfl, by norm_num⟩,
    (c10_thm 2).2.1 ⟨patternPositions 2, 4⟩ ⟨rfl, by norm_num⟩⟩

end PixShifter
